import Mathlib

/-!
Verification of the `runAgent.py` command-line pipeline.

The script is embedded shallowly: the external world (environment variable,
filesystem, upload endpoint, generation endpoint) is an explicit `Env`
record of oracles, parsed CLI arguments are an `Args` record, and the whole
`main` function of the script becomes a pure function producing an exit
outcome together with a trace of observable events (remote calls, stdout and
stderr lines, the size-guard comparison, and the output-file write).  The
unbounded polling `while` loop of the script is modelled with explicit fuel;
running out of fuel yields the `diverged` outcome, representing an infinite
loop of the real program.

Aspects deliberately abstracted: `time.sleep` (no timing), the textual repr
printed for an uploaded file object (modelled by `showFile`), thousands
separators in the size-limit error message, and exceptions from local file
reads after a successful existence check (the script opens text files with
errors ignored, so decoding never fails).
-/

/-- A remote file handle as returned by the upload endpoint: a name and a
lifecycle state string (for example PROCESSING, READY, FAILED, PENDING). -/
structure FileHandle where
  name : String
  state : String
deriving DecidableEq

/-- Observable events of one run of the script, in program order. -/
inductive Event where
  | uploadCall : String → Event
  | statusCall : String → Event
  | sizeCheck : Nat → Event
  | generateCall : Event
  | stdout : String → Event
  | stderr : String → Event
  | writeFile : String → String → Event
deriving DecidableEq

/-- How a run ends: a call of sys.exit (or falling off the end, exit 0), or
an infinite polling loop. -/
inductive Outcome where
  | exited : Nat → Outcome
  | diverged : Outcome
deriving DecidableEq

/-- The result of a run: its outcome and the full event trace. -/
structure RunResult where
  outcome : Outcome
  events : List Event
deriving DecidableEq

/-- Parsed CLI arguments of runAgent.py.  argparse gives the two
comma-separated list options the empty string when omitted, the API key is
None when omitted, and print-prompt-only is a store-true flag. -/
structure Args where
  api_key : Option String
  agent_setup : String
  enclose_files_as_prompt : String
  enclose_files : String
  print_prompt_only : Bool
  dump_to : String
deriving DecidableEq

/-- The external world: environment variable, filesystem and remote
endpoints.  `upload` and `getFile` return an error message when the
corresponding client call raises; `getFile name i` is the i-th files.get
call made for handle `name`.  `generate` is the generation endpoint
response, `writeOk` whether the final output write succeeds. -/
structure Env where
  googleApiKey : Option String
  pathExists : String → Bool
  readFile : String → String
  upload : String → Except String FileHandle
  getFile : String → Nat → Except String FileHandle
  generate : Except String String
  writeOk : Bool
  writeErrMsg : String

-- Constants of runAgent.py (lines 10-13).
def MAX_TEXT_TOKENS : Nat := 1000000
def AVG_CHARS_PER_TOKEN : Nat := 4
def MAX_CHARS : Nat := MAX_TEXT_TOKENS * AVG_CHARS_PER_TOKEN
def MAX_UPLOAD_FILES : Nat := 10

/-- Python truthiness of an optional string: None and the empty string are
falsy. -/
def truthy : Option String → Bool
  | none => false
  | some s => s ≠ ""

/-- Python str.strip on a character list: drop whitespace from both ends
(ASCII whitespace; the scripts only ever strip spaces, tabs and newlines). -/
def stripChars (l : List Char) : List Char :=
  ((l.dropWhile Char.isWhitespace).reverse.dropWhile Char.isWhitespace).reverse

/-- Python str.strip. -/
def pyStrip (s : String) : String :=
  String.mk (stripChars s.data)

/-- Python str.split on a single comma over a character list: every comma
separates, adjacent commas give empty segments, the empty string gives one
empty segment. -/
def splitCommaChars : List Char → List (List Char)
  | [] => [[]]
  | c :: rest =>
    if c = ',' then [] :: splitCommaChars rest
    else
      match splitCommaChars rest with
      | [] => [[c]]
      | g :: gs => (c :: g) :: gs

/-- Comma splitting of a file-list option: split on commas, strip each
segment, drop segments that strip to nothing (lines 85-89 and line 122). -/
def splitPaths (s : String) : List String :=
  (((splitCommaChars s.data).map (fun l => String.mk (stripChars l))).filter (fun p => p ≠ ""))

/-- The text-attachment path list actually iterated: the option is only
split when the argument string is truthy (line 84). -/
def textPaths (args : Args) : List String :=
  if args.enclose_files_as_prompt ≠ "" then splitPaths args.enclose_files_as_prompt else []

/-- The block appended to the prompt for one text attachment
(line 109): a newline, a delimiter line naming the path, the content, and a
trailing newline. -/
def promptBlock (path content : String) : String :=
  "\n# " ++ path ++ "\n" ++ content ++ "\n"

/-- Prompt assembly (lines 79-80 and 105-109): the instructions content is
stripped, then each attachment block is appended in order. -/
def assemble (instrRaw : String) (files : List (String × String)) : String :=
  files.foldl (fun acc f => acc ++ promptBlock f.1 f.2) (pyStrip instrRaw)

/-- The assembled text prompt of a run, as a function of the world and the
arguments. -/
def assembledPrompt (env : Env) (args : Args) : String :=
  assemble (env.readFile args.agent_setup) ((textPaths args).map (fun p => (p, env.readFile p)))

/-- Result of one stage of the pipeline: success with a value, exit 1, or
divergence; each carries the events the stage produced. -/
inductive StepResult (α : Type) where
  | ok : α → List Event → StepResult α
  | exit1 : List Event → StepResult α
  | diverge : List Event → StepResult α
deriving DecidableEq

/-- Prepends already-produced events to a stage result. -/
def stepPre {α : Type} (evs : List Event) : StepResult α → StepResult α
  | .ok a evs2 => .ok a (evs ++ evs2)
  | .exit1 evs2 => .exit1 (evs ++ evs2)
  | .diverge evs2 => .diverge (evs ++ evs2)

/-- The text-attachment loop (lines 90-103): for each path in order, check
existence (exit 1 with an error line if missing) and read the content. -/
def readTextFiles (env : Env) : List String → Except Event (List (String × String))
  | [] => .ok []
  | p :: rest =>
    if env.pathExists p then
      (readTextFiles env rest).map (fun fs => (p, env.readFile p) :: fs)
    else
      .error (.stderr ("Error: Text file not found: " ++ p))

def waitingMsg (path : String) : String :=
  "   Waiting for " ++ path ++ " to process..."

def uploadExcMsg (path e : String) : String :=
  "Error uploading " ++ path ++ ": " ++ e

def processingFailedMsg (path : String) : String :=
  "File processing failed for " ++ path

def refMsg (h : FileHandle) : String :=
  "   Ref: " ++ h.name ++ " | State: " ++ h.state

/-- The polling loop (lines 145-151): while the current handle state is
PROCESSING, print a waiting line, sleep, and refetch the handle; once out of
the loop, a FAILED state raises (caught as an upload error, exit 1) and any
other state is collected.  `fuel` bounds the number of refetches; `i`
indexes the files.get calls made for this file. -/
def pollFile (env : Env) (path : String) (fuel : Nat) (cur : FileHandle) (i : Nat) :
    StepResult FileHandle :=
  if cur.state = "PROCESSING" then
    match fuel with
    | 0 => .diverge [.stdout (waitingMsg path)]
    | fuel' + 1 =>
      match env.getFile cur.name i with
      | .error e =>
        .exit1 [.stdout (waitingMsg path), .statusCall cur.name,
                .stderr (uploadExcMsg path e)]
      | .ok h =>
        stepPre [.stdout (waitingMsg path), .statusCall cur.name]
          (pollFile env path fuel' h (i + 1))
  else if cur.state = "FAILED" then
    .exit1 [.stderr (uploadExcMsg path (processingFailedMsg path))]
  else
    .ok cur []

/-- The upload loop (lines 132-157): for each path in order, check
existence, upload, print the handle reference, poll until out of
PROCESSING, and collect the final handle. -/
def uploadFiles (env : Env) (fuel : Nat) : List String → StepResult (List FileHandle)
  | [] => .ok [] []
  | path :: rest =>
    if env.pathExists path then
      match env.upload path with
      | .error e => .exit1 [.uploadCall path, .stderr (uploadExcMsg path e)]
      | .ok h =>
        match pollFile env path fuel h 0 with
        | .exit1 evs => .exit1 ([.uploadCall path, .stdout (refMsg h)] ++ evs)
        | .diverge evs => .diverge ([.uploadCall path, .stdout (refMsg h)] ++ evs)
        | .ok hFinal evs =>
          match uploadFiles env fuel rest with
          | .ok hs evs2 => .ok (hFinal :: hs) ([.uploadCall path, .stdout (refMsg h)] ++ evs ++ evs2)
          | .exit1 evs2 => .exit1 ([.uploadCall path, .stdout (refMsg h)] ++ evs ++ evs2)
          | .diverge evs2 => .diverge ([.uploadCall path, .stdout (refMsg h)] ++ evs ++ evs2)
    else
      .exit1 [.stderr ("Error: File to upload not found: " ++ path)]

def uploadingMsg (n : Nat) : String :=
  "⏳ Uploading " ++ toString n ++ " file(s) to Google GenAI..."

def tooManyMsg (n : Nat) : String :=
  "Error: Too many files to upload (" ++ toString n ++ "). Limit is " ++
    toString MAX_UPLOAD_FILES ++ "."

/-- Section 4 of the script (lines 119-157): only entered when the
enclose-files argument is truthy; checks the count limit, prints the
progress line, then runs the upload loop. -/
def uploadSection (env : Env) (args : Args) (fuel : Nat) : StepResult (List FileHandle) :=
  if args.enclose_files ≠ "" then
    let paths := splitPaths args.enclose_files
    if paths.length > MAX_UPLOAD_FILES then
      .exit1 [.stderr (tooManyMsg paths.length)]
    else
      stepPre [.stdout (uploadingMsg paths.length)] (uploadFiles env fuel paths)
  else
    .ok [] []

/-- Stand-in for the textual repr the script prints for an uploaded file
object in the print-prompt-only block. -/
def showFile (h : FileHandle) : String :=
  h.name ++ " | " ++ h.state

/-- Sections 5-7 of the script (lines 159-196): the print-prompt-only
short-circuit, the generation call, and the output write. -/
def finishRun (env : Env) (args : Args) (combined : String) (handles : List FileHandle) :
    Outcome × List Event :=
  if args.print_prompt_only then
    (.exited 0,
      [.stdout "=== Constructed Prompt & File References ===", .stdout combined] ++
        (if handles.isEmpty then []
         else .stdout "\n=== Uploaded Files ===" :: handles.map (fun h => .stdout (showFile h))) ++
        [.stdout "=== End of Prompt & File References ==="])
  else
    match env.generate with
    | .error e =>
      (.exited 1,
        [.stdout "⏳ Querying Gemini 2.5 Flash...", .generateCall,
         .stderr ("Error while querying Gemini: " ++ e)])
    | .ok output =>
      let evs := [.stdout "⏳ Querying Gemini 2.5 Flash...", .generateCall,
                  .stdout "✅ Query successful.", .stdout "--- Output Start ---",
                  .stdout output, .stdout "--- Output End ---"]
      if env.writeOk then
        (.exited 0,
          evs ++ [.writeFile args.dump_to output,
                  .stdout ("✅ Output written to " ++ args.dump_to)])
      else
        (.exited 1, evs ++ [.stderr ("Error writing output: " ++ env.writeErrMsg)])

def sizeLimitMsg (n : Nat) : String :=
  "Error: Text prompt size (" ++ toString n ++ " chars) exceeds safe limit (~" ++
    toString MAX_CHARS ++ " chars)."

/-- The main function of runAgent.py as a pure function of the world, the
parsed arguments, and the polling fuel. -/
def runMain (env : Env) (args : Args) (fuel : Nat) : RunResult :=
  if !(truthy args.api_key) && !(truthy env.googleApiKey) then
    { outcome := .exited 1,
      events := [.stderr "Error: No API key provided and GOOGLE_API_KEY not set in environment."] }
  else if !(env.pathExists args.agent_setup) then
    { outcome := .exited 1,
      events := [.stderr ("Error: instructions file not found: " ++ args.agent_setup)] }
  else
    match readTextFiles env (textPaths args) with
    | .error ev => { outcome := .exited 1, events := [ev] }
    | .ok files =>
      let combined := assemble (env.readFile args.agent_setup) files
      if combined.length > MAX_CHARS then
        { outcome := .exited 1,
          events := [.sizeCheck combined.length, .stderr (sizeLimitMsg combined.length)] }
      else
        match uploadSection env args fuel with
        | .exit1 evs => { outcome := .exited 1, events := .sizeCheck combined.length :: evs }
        | .diverge evs => { outcome := .diverged, events := .sizeCheck combined.length :: evs }
        | .ok handles evs =>
          let fin := finishRun env args combined handles
          { outcome := fin.1, events := .sizeCheck combined.length :: (evs ++ fin.2) }

-- Event classifiers and counters.

def isGen : Event → Bool
  | .generateCall => true
  | _ => false

def isUpload : Event → Bool
  | .uploadCall _ => true
  | _ => false

def isStatus : Event → Bool
  | .statusCall _ => true
  | _ => false

def isWrite : Event → Bool
  | .writeFile _ _ => true
  | _ => false

def isRemoteCall : Event → Bool
  | .uploadCall _ => true
  | .statusCall _ => true
  | .generateCall => true
  | _ => false

def countGen (evs : List Event) : Nat := evs.countP (fun e => isGen e)
def countUpload (evs : List Event) : Nat := evs.countP (fun e => isUpload e)
def countStatus (evs : List Event) : Nat := evs.countP (fun e => isStatus e)
def countWrite (evs : List Event) : Nat := evs.countP (fun e => isWrite e)
def countRemote (evs : List Event) : Nat := evs.countP (fun e => isRemoteCall e)

/-- Pipeline phase of an event under the order the code implements: the
size guard, then upload and status calls, then the generation call, then
the output write. -/
def codePhase : Event → Option Nat
  | .sizeCheck _ => some 1
  | .uploadCall _ => some 2
  | .statusCall _ => some 2
  | .generateCall => some 3
  | .writeFile _ _ => some 4
  | _ => none

/-- Pipeline phase of an event under the order the claim states: upload and
status calls first, then the size guard, then generation, then the write. -/
def specPhase : Event → Option Nat
  | .uploadCall _ => some 1
  | .statusCall _ => some 1
  | .sizeCheck _ => some 2
  | .generateCall => some 3
  | .writeFile _ _ => some 4
  | _ => none

-- Events of a stage result, whatever its constructor.
def stepEvents {α : Type} : StepResult α → List Event
  | .ok _ evs => evs
  | .exit1 evs => evs
  | .diverge evs => evs
/-- Events the upload stage can produce: upload calls, status polls, and
console lines. -/
def uploadStageEvent : Event → Bool
  | .uploadCall _ => true
  | .statusCall _ => true
  | .stdout _ => true
  | .stderr _ => true
  | _ => false
-- Concrete worlds used by witnesses and counterexamples.

/-- A benign world: credential present, a setup file, one text attachment
and one uploadable file; uploads come back READY at once. -/
def okEnv : Env :=
  { googleApiKey := some "k"
    pathExists := fun p => p = "setup.txt" || p = "doc.pdf" || p = "notes.txt"
    readFile := fun p =>
      if p = "setup.txt" then " Summarize this. "
      else if p = "notes.txt" then "Hello world" else ""
    upload := fun _ => .ok ⟨"files/d1", "READY"⟩
    getFile := fun _ _ => .ok ⟨"files/d1", "READY"⟩
    generate := .ok "OK"
    writeOk := true
    writeErrMsg := "denied" }

/-- Same world with no credential anywhere. -/
def noKeyEnv : Env := { okEnv with googleApiKey := none }

/-- A world whose upload endpoint reports PROCESSING once, after which every
status poll reports READY. -/
def pollEnv : Env :=
  { okEnv with
    upload := fun _ => .ok ⟨"files/d1", "PROCESSING"⟩
    getFile := fun _ _ => .ok ⟨"files/d1", "READY"⟩ }

/-- An instructions text longer than MAX_CHARS. -/
def bigText : String := String.mk (List.replicate 4000001 'a')

/-- The benign world with oversized instructions. -/
def bigEnv : Env :=
  { okEnv with readFile := fun p => if p = "setup.txt" then bigText else "" }

def plainArgs : Args :=
  { api_key := some "k"
    agent_setup := "setup.txt"
    enclose_files_as_prompt := ""
    enclose_files := ""
    print_prompt_only := false
    dump_to := "out.txt" }
def missingSetupArgs : Args := { plainArgs with agent_setup := "nope.txt" }
def manyUploadArgs : Args :=
  { plainArgs with enclose_files := "a,b,c,d,e,f,g,h,i,j,k" }
/-- The failure conditions claim C6 enumerates, all of which arise before
the generation call: missing credential, missing instructions file, missing
text-attachment file, size-limit breach, upload-count breach, and upload
failure (missing upload file, a raising upload call, or a handle whose
polling ends in FAILED or in a raising status call). -/
def preGenFailure (env : Env) (args : Args) (fuel : Nat) : Prop :=
  (!(truthy args.api_key) && !(truthy env.googleApiKey)) = true ∨
  env.pathExists args.agent_setup = false ∨
  (∃ p ∈ textPaths args, env.pathExists p = false) ∨
  (assembledPrompt env args).length > MAX_CHARS ∨
  (splitPaths args.enclose_files).length > MAX_UPLOAD_FILES ∨
  (∃ p ∈ splitPaths args.enclose_files,
    env.pathExists p = false ∨ (∃ e, env.upload p = .error e) ∨
      (∃ h evs, env.upload p = .ok h ∧ pollFile env p fuel h 0 = .exit1 evs))
def noKeyArgs : Args := { plainArgs with api_key := none }
def noKeyPPOArgs : Args := { noKeyArgs with print_prompt_only := true }

def uploadPPOArgs : Args :=
  { plainArgs with enclose_files := "doc.pdf", print_prompt_only := true }
/-- The same arguments with both file-list options removed. -/
def blankFileArgs (args : Args) : Args :=
  { args with enclose_files_as_prompt := "", enclose_files := "" }
def commaArgs : Args := { plainArgs with enclose_files := " , ", print_prompt_only := true }
def altDumpArgs : Args := { plainArgs with dump_to := "other.txt" }
def uploadOnlyPPOArgs : Args :=
  { plainArgs with enclose_files := "doc.pdf", print_prompt_only := true }

lemma stepEvents_stepPre {α : Type} (pre : List Event) (r : StepResult α) :
    stepEvents (stepPre pre r) = pre ++ stepEvents r := by
  cases r <;> rfl

lemma pollFile_failed (env : Env) (path : String) (fuel : Nat) (cur : FileHandle) (i : Nat)
    (h1 : cur.state = "FAILED") :
    pollFile env path fuel cur i = .exit1 [.stderr (uploadExcMsg path (processingFailedMsg path))] := by
  unfold pollFile
  simp [h1]

lemma pollFile_settled (env : Env) (path : String) (fuel : Nat) (cur : FileHandle) (i : Nat)
    (h1 : cur.state ≠ "PROCESSING") (h2 : cur.state ≠ "FAILED") :
    pollFile env path fuel cur i = .ok cur [] := by
  unfold pollFile
  simp [h1, h2]

lemma pollFile_processing_zero (env : Env) (path : String) (cur : FileHandle) (i : Nat)
    (h1 : cur.state = "PROCESSING") :
    pollFile env path 0 cur i = .diverge [.stdout (waitingMsg path)] := by
  unfold pollFile
  simp [h1]

lemma pollFile_processing_succ (env : Env) (path : String) (fuel : Nat) (cur : FileHandle) (i : Nat)
    (h1 : cur.state = "PROCESSING") :
    pollFile env path (fuel + 1) cur i =
      (match env.getFile cur.name i with
       | .error e =>
         .exit1 [.stdout (waitingMsg path), .statusCall cur.name, .stderr (uploadExcMsg path e)]
       | .ok h =>
         stepPre [.stdout (waitingMsg path), .statusCall cur.name]
           (pollFile env path fuel h (i + 1))) := by
  conv_lhs => unfold pollFile
  simp [h1]

lemma pollFile_events (env : Env) (path : String) (fuel : Nat) (cur : FileHandle) (i : Nat) :
    ∀ e ∈ stepEvents (pollFile env path fuel cur i), uploadStageEvent e = true := by
  induction fuel generalizing cur i with
  | zero =>
    intro e he
    by_cases h1 : cur.state = "PROCESSING"
    · rw [pollFile_processing_zero env path cur i h1] at he
      simp [stepEvents] at he
      simp [he, uploadStageEvent]
    · by_cases h2 : cur.state = "FAILED"
      · rw [pollFile_failed env path 0 cur i h2] at he
        simp [stepEvents] at he
        simp [he, uploadStageEvent]
      · rw [pollFile_settled env path 0 cur i h1 h2] at he
        simp [stepEvents] at he
  | succ fuel ih =>
    intro e he
    by_cases h1 : cur.state = "PROCESSING"
    · rw [pollFile_processing_succ env path fuel cur i h1] at he
      cases hg : env.getFile cur.name i with
      | error msg =>
        rw [hg] at he
        simp [stepEvents] at he
        rcases he with he | he | he <;> simp [he, uploadStageEvent]
      | ok h =>
        rw [hg] at he
        rw [stepEvents_stepPre] at he
        simp at he
        rcases he with he | he | he
        · simp [he, uploadStageEvent]
        · simp [he, uploadStageEvent]
        · exact ih h (i + 1) e he
    · by_cases h2 : cur.state = "FAILED"
      · rw [pollFile_failed env path (fuel + 1) cur i h2] at he
        simp [stepEvents] at he
        simp [he, uploadStageEvent]
      · rw [pollFile_settled env path (fuel + 1) cur i h1 h2] at he
        simp [stepEvents] at he

lemma uploadFiles_events (env : Env) (fuel : Nat) (paths : List String) :
    ∀ e ∈ stepEvents (uploadFiles env fuel paths), uploadStageEvent e = true := by
  induction paths with
  | nil =>
    intro e he
    simp [uploadFiles, stepEvents] at he
  | cons path rest ih =>
    intro e he
    unfold uploadFiles at he
    by_cases hex : env.pathExists path
    · rw [if_pos hex] at he
      cases hu : env.upload path with
      | error msg =>
        rw [hu] at he
        simp [stepEvents] at he
        rcases he with he | he <;> simp [he, uploadStageEvent]
      | ok h =>
        rw [hu] at he
        dsimp only at he
        cases hp : pollFile env path fuel h 0 with
        | exit1 evs =>
          rw [hp] at he
          simp [stepEvents] at he
          rcases he with he | he | he
          · simp [he, uploadStageEvent]
          · simp [he, uploadStageEvent]
          · have := pollFile_events env path fuel h 0 e (by rw [hp]; exact he)
            exact this
        | diverge evs =>
          rw [hp] at he
          simp [stepEvents] at he
          rcases he with he | he | he
          · simp [he, uploadStageEvent]
          · simp [he, uploadStageEvent]
          · exact pollFile_events env path fuel h 0 e (by rw [hp]; exact he)
        | ok hFinal evs =>
          rw [hp] at he
          cases hr : uploadFiles env fuel rest with
          | ok hs evs2 =>
            rw [hr] at he
            simp [stepEvents] at he
            rcases he with he | he | he | he
            · simp [he, uploadStageEvent]
            · simp [he, uploadStageEvent]
            · exact pollFile_events env path fuel h 0 e (by rw [hp]; exact he)
            · exact ih e (by rw [hr]; exact he)
          | exit1 evs2 =>
            rw [hr] at he
            simp [stepEvents] at he
            rcases he with he | he | he | he
            · simp [he, uploadStageEvent]
            · simp [he, uploadStageEvent]
            · exact pollFile_events env path fuel h 0 e (by rw [hp]; exact he)
            · exact ih e (by rw [hr]; exact he)
          | diverge evs2 =>
            rw [hr] at he
            simp [stepEvents] at he
            rcases he with he | he | he | he
            · simp [he, uploadStageEvent]
            · simp [he, uploadStageEvent]
            · exact pollFile_events env path fuel h 0 e (by rw [hp]; exact he)
            · exact ih e (by rw [hr]; exact he)
    · rw [if_neg hex] at he
      simp [stepEvents] at he
      simp [he, uploadStageEvent]

lemma uploadSection_events (env : Env) (args : Args) (fuel : Nat) :
    ∀ e ∈ stepEvents (uploadSection env args fuel), uploadStageEvent e = true := by
  intro e he
  unfold uploadSection at he
  by_cases h1 : args.enclose_files ≠ ""
  · rw [if_pos h1] at he
    by_cases h2 : (splitPaths args.enclose_files).length > MAX_UPLOAD_FILES
    · rw [if_pos h2] at he
      simp [stepEvents] at he
      simp [he, uploadStageEvent]
    · rw [if_neg h2] at he
      rw [stepEvents_stepPre] at he
      simp at he
      rcases he with he | he
      · simp [he, uploadStageEvent]
      · exact uploadFiles_events env fuel _ e he
  · rw [if_neg h1] at he
    simp [stepEvents] at he

lemma readTextFiles_ok (env : Env) (paths : List String) (files : List (String × String))
    (h : readTextFiles env paths = .ok files) :
    files = paths.map (fun p => (p, env.readFile p)) := by
  induction paths generalizing files with
  | nil =>
    simp [readTextFiles] at h
    simp [h.symm]
  | cons p rest ih =>
    unfold readTextFiles at h
    by_cases hex : env.pathExists p
    · rw [if_pos hex] at h
      cases hr : readTextFiles env rest with
      | error ev => rw [hr] at h; simp [Except.map] at h
      | ok fs =>
        rw [hr] at h
        simp [Except.map] at h
        simp [h.symm, ih fs hr]
    · rw [if_neg hex] at h
      simp at h

lemma readTextFiles_error (env : Env) (paths : List String) (ev : Event)
    (h : readTextFiles env paths = .error ev) :
    ∃ p, p ∈ paths ∧ env.pathExists p = false ∧
      ev = .stderr ("Error: Text file not found: " ++ p) := by
  induction paths generalizing ev with
  | nil => simp [readTextFiles] at h
  | cons p rest ih =>
    unfold readTextFiles at h
    by_cases hex : env.pathExists p
    · rw [if_pos hex] at h
      cases hr : readTextFiles env rest with
      | error ev2 =>
        rw [hr] at h
        simp [Except.map] at h
        obtain ⟨q, hq, hqex, hqev⟩ := ih ev2 hr
        exact ⟨q, by simp [hq], hqex, by rw [← h, hqev]⟩
      | ok fs => rw [hr] at h; simp [Except.map] at h
    · rw [if_neg hex] at h
      simp at h
      exact ⟨p, by simp, by simp [hex], h.symm⟩

lemma readTextFiles_missing (env : Env) (paths : List String) (p : String)
    (hp : p ∈ paths) (hex : env.pathExists p = false) :
    ∃ ev, readTextFiles env paths = .error ev := by
  induction paths with
  | nil => simp at hp
  | cons q rest ih =>
    unfold readTextFiles
    by_cases hq : env.pathExists q
    · rw [if_pos hq]
      have hpq : p ≠ q := by
        intro hEq
        rw [hEq] at hex
        rw [hex] at hq
        exact Bool.noConfusion hq
      have hprest : p ∈ rest := by
        rcases List.mem_cons.mp hp with h1 | h1
        · exact absurd h1 hpq
        · exact h1
      obtain ⟨ev, hev⟩ := ih hprest
      exact ⟨ev, by rw [hev]; rfl⟩
    · rw [if_neg hq]
      exact ⟨_, rfl⟩

lemma uploadStage_phase (e : Event) (h : uploadStageEvent e = true) :
    codePhase e = none ∨ codePhase e = some 2 := by
  cases e <;> first
    | exact Or.inl rfl
    | exact Or.inr rfl
    | exact absurd h (by simp [uploadStageEvent])

lemma uploadStage_not_gen (e : Event) (h : uploadStageEvent e = true) : isGen e = false := by
  cases e <;> first | rfl | exact absurd h (by simp [uploadStageEvent])

lemma uploadStage_not_write (e : Event) (h : uploadStageEvent e = true) : isWrite e = false := by
  cases e <;> first | rfl | exact absurd h (by simp [uploadStageEvent])

lemma mem_filterMap_codePhase_upload (env : Env) (args : Args) (fuel : Nat) :
    ∀ n ∈ (stepEvents (uploadSection env args fuel)).filterMap codePhase, n = 2 := by
  intro n hn
  rw [List.mem_filterMap] at hn
  obtain ⟨e, he, hph⟩ := hn
  rcases uploadStage_phase e (uploadSection_events env args fuel e he) with h | h
  · rw [h] at hph; cases hph
  · rw [h] at hph
    cases hph
    rfl

lemma filterMap_codePhase_stdout_map (hs : List FileHandle) :
    List.filterMap (codePhase ∘ fun h => Event.stdout (showFile h)) hs = [] := by
  induction hs with
  | nil => rfl
  | cons h t ih => simp [List.filterMap_cons, Function.comp, codePhase, ih]

lemma finishRun_phase (env : Env) (args : Args) (c : String) (hs : List FileHandle) :
    List.Sorted (· ≤ ·) (((finishRun env args c hs).2).filterMap codePhase) ∧
      ∀ n ∈ ((finishRun env args c hs).2).filterMap codePhase, 3 ≤ n := by
  unfold finishRun
  by_cases hppo : args.print_prompt_only
  · simp only [hppo, if_true]
    by_cases hemp : hs.isEmpty <;>
      simp [hemp, List.filterMap_append, List.filterMap_cons, codePhase,
        filterMap_codePhase_stdout_map]
  · simp only [hppo, if_false, Bool.false_eq_true]
    cases env.generate with
    | error e =>
      constructor
      · simp [codePhase]
      · simp [codePhase]
    | ok output =>
      by_cases hw : env.writeOk <;>
        constructor <;>
          simp [hw, List.filterMap_append, List.filterMap_cons, codePhase, List.sorted_cons]

lemma sorted_twos_append (l₂ lf : List Nat) (h2 : ∀ x ∈ l₂, x = 2)
    (hf : List.Sorted (· ≤ ·) lf) (h3 : ∀ n ∈ lf, 3 ≤ n) :
    List.Sorted (· ≤ ·) (1 :: (l₂ ++ lf)) := by
  rw [List.sorted_cons]
  refine ⟨?_, ?_⟩
  · intro b hb
    rcases List.mem_append.mp hb with hb | hb
    · have := h2 b hb; omega
    · have := h3 b hb; omega
  · rw [List.Sorted, List.pairwise_append]
    refine ⟨List.pairwise_of_forall_mem_list
      (fun a ha b hb => by have := h2 a ha; have := h2 b hb; omega), hf, ?_⟩
    intro a ha b hb
    have := h2 a ha
    have := h3 b hb
    omega

lemma sorted_one_cons_twos (l : List Nat) (h : ∀ x ∈ l, x = 2) :
    List.Sorted (· ≤ ·) (1 :: l) := by
  have := sorted_twos_append l [] h (by simp) (by simp)
  simpa using this

/-- Claim C5 (amended): the pipeline runs its traced phases in the order
size guard, then upload and status calls, then the single generation call,
then the output write — so the size guard is applied BEFORE the optional
upload step, not after it as the claim states. -/
theorem claim_C5_pipeline_order (env : Env) (args : Args) (fuel : Nat) :
    List.Sorted (· ≤ ·) (((runMain env args fuel).events).filterMap codePhase) := by
  unfold runMain
  split
  · simp [codePhase]
  · split
    · simp [codePhase]
    · split
      · rename_i ev heq
        obtain ⟨p, _, _, hev⟩ := readTextFiles_error env (textPaths args) ev heq
        simp [hev, codePhase]
      · rename_i files heq
        dsimp only
        split
        · simp [codePhase, List.sorted_cons]
        · split
          · rename_i evs hsec
            simp only [List.filterMap_cons, codePhase]
            refine sorted_one_cons_twos _ (fun x hx => ?_)
            exact mem_filterMap_codePhase_upload env args fuel x (by rw [hsec]; exact hx)
          · rename_i evs hsec
            simp only [List.filterMap_cons, codePhase]
            refine sorted_one_cons_twos _ (fun x hx => ?_)
            exact mem_filterMap_codePhase_upload env args fuel x (by rw [hsec]; exact hx)
          · rename_i handles evs hsec
            simp only [List.filterMap_cons, List.filterMap_append, codePhase]
            refine sorted_twos_append _ _ (fun x hx => ?_)
              (finishRun_phase env args _ handles).1 (finishRun_phase env args _ handles).2
            exact mem_filterMap_codePhase_upload env args fuel x (by rw [hsec]; exact hx)

-- Branch equations for runMain.

lemma runMain_credMissing (env : Env) (args : Args) (fuel : Nat)
    (h : (!(truthy args.api_key) && !(truthy env.googleApiKey)) = true) :
    runMain env args fuel =
      { outcome := .exited 1,
        events := [.stderr "Error: No API key provided and GOOGLE_API_KEY not set in environment."] } := by
  unfold runMain
  simp [h]

lemma runMain_agentMissing (env : Env) (args : Args) (fuel : Nat)
    (h1 : (!(truthy args.api_key) && !(truthy env.googleApiKey)) = false)
    (h2 : env.pathExists args.agent_setup = false) :
    runMain env args fuel =
      { outcome := .exited 1,
        events := [.stderr ("Error: instructions file not found: " ++ args.agent_setup)] } := by
  unfold runMain
  simp [h1, h2]

lemma runMain_textError (env : Env) (args : Args) (fuel : Nat) (ev : Event)
    (h1 : (!(truthy args.api_key) && !(truthy env.googleApiKey)) = false)
    (h2 : env.pathExists args.agent_setup = true)
    (h3 : readTextFiles env (textPaths args) = .error ev) :
    runMain env args fuel = { outcome := .exited 1, events := [ev] } := by
  unfold runMain
  simp [h1, h2, h3]

lemma runMain_sizeFail (env : Env) (args : Args) (fuel : Nat) (files : List (String × String))
    (h1 : (!(truthy args.api_key) && !(truthy env.googleApiKey)) = false)
    (h2 : env.pathExists args.agent_setup = true)
    (h3 : readTextFiles env (textPaths args) = .ok files)
    (h4 : (assemble (env.readFile args.agent_setup) files).length > MAX_CHARS) :
    runMain env args fuel =
      { outcome := .exited 1,
        events := [.sizeCheck (assemble (env.readFile args.agent_setup) files).length,
                   .stderr (sizeLimitMsg (assemble (env.readFile args.agent_setup) files).length)] } := by
  unfold runMain
  simp [h1, h2, h3, h4]

lemma runMain_afterGuard (env : Env) (args : Args) (fuel : Nat) (files : List (String × String))
    (h1 : (!(truthy args.api_key) && !(truthy env.googleApiKey)) = false)
    (h2 : env.pathExists args.agent_setup = true)
    (h3 : readTextFiles env (textPaths args) = .ok files)
    (h4 : ¬ (assemble (env.readFile args.agent_setup) files).length > MAX_CHARS) :
    runMain env args fuel =
      (match uploadSection env args fuel with
       | .exit1 evs =>
         { outcome := .exited 1,
           events := .sizeCheck (assemble (env.readFile args.agent_setup) files).length :: evs }
       | .diverge evs =>
         { outcome := .diverged,
           events := .sizeCheck (assemble (env.readFile args.agent_setup) files).length :: evs }
       | .ok handles evs =>
         { outcome := (finishRun env args (assemble (env.readFile args.agent_setup) files) handles).1,
           events := .sizeCheck (assemble (env.readFile args.agent_setup) files).length ::
             (evs ++ (finishRun env args (assemble (env.readFile args.agent_setup) files) handles).2) }) := by
  unfold runMain
  simp [h1, h2, h3, h4]

-- Inversion for stepPre and pollFile success.

lemma stepPre_eq_ok {α : Type} (pre : List Event) (r : StepResult α) (a : α) (evs : List Event)
    (h : stepPre pre r = .ok a evs) :
    ∃ evs2, r = .ok a evs2 ∧ evs = pre ++ evs2 := by
  cases r with
  | ok b evs2 =>
    simp [stepPre] at h
    exact ⟨evs2, by rw [h.1], h.2.symm⟩
  | exit1 evs2 => simp [stepPre] at h
  | diverge evs2 => simp [stepPre] at h

lemma pollFile_ok_settled (env : Env) (path : String) (fuel : Nat) (cur : FileHandle) (i : Nat)
    (hs : FileHandle) (evs : List Event)
    (h : pollFile env path fuel cur i = .ok hs evs) :
    hs.state ≠ "PROCESSING" ∧ hs.state ≠ "FAILED" := by
  induction fuel generalizing cur i evs with
  | zero =>
    by_cases h1 : cur.state = "PROCESSING"
    · rw [pollFile_processing_zero env path cur i h1] at h
      cases h
    · by_cases h2 : cur.state = "FAILED"
      · rw [pollFile_failed env path 0 cur i h2] at h
        cases h
      · rw [pollFile_settled env path 0 cur i h1 h2] at h
        cases h
        exact ⟨h1, h2⟩
  | succ fuel ih =>
    by_cases h1 : cur.state = "PROCESSING"
    · rw [pollFile_processing_succ env path fuel cur i h1] at h
      cases hg : env.getFile cur.name i with
      | error msg => rw [hg] at h; cases h
      | ok hnext =>
        rw [hg] at h
        dsimp only at h
        obtain ⟨evs2, hpoll, _⟩ := stepPre_eq_ok _ _ _ _ h
        exact ih hnext (i + 1) evs2 hpoll
    · by_cases h2 : cur.state = "FAILED"
      · rw [pollFile_failed env path (fuel + 1) cur i h2] at h
        cases h
      · rw [pollFile_settled env path (fuel + 1) cur i h1 h2] at h
        cases h
        exact ⟨h1, h2⟩

lemma pollFile_processing_ok_polls (env : Env) (path : String) (fuel : Nat) (cur : FileHandle)
    (i : Nat) (hs : FileHandle) (evs : List Event)
    (h1 : cur.state = "PROCESSING")
    (h : pollFile env path fuel cur i = .ok hs evs) :
    1 ≤ countStatus evs := by
  cases fuel with
  | zero =>
    rw [pollFile_processing_zero env path cur i h1] at h
    cases h
  | succ fuel =>
    rw [pollFile_processing_succ env path fuel cur i h1] at h
    cases hg : env.getFile cur.name i with
    | error msg => rw [hg] at h; cases h
    | ok hnext =>
      rw [hg] at h
      dsimp only at h
      obtain ⟨evs2, _, hevs⟩ := stepPre_eq_ok _ _ _ _ h
      rw [hevs]
      simp [countStatus, List.countP_cons, List.countP_append, isStatus]

-- Failure propagation through the upload loop.

lemma uploadFiles_not_ok (env : Env) (fuel : Nat) (paths : List String) (p : String)
    (hp : p ∈ paths)
    (hbad : env.pathExists p = false ∨ (∃ e, env.upload p = .error e) ∨
      (∃ h evs, env.upload p = .ok h ∧ pollFile env p fuel h 0 = .exit1 evs)) :
    ∀ hs evs, uploadFiles env fuel paths ≠ .ok hs evs := by
  induction paths with
  | nil => simp at hp
  | cons q rest ih =>
    intro hs evs hok
    unfold uploadFiles at hok
    by_cases hq : env.pathExists q
    · rw [if_pos hq] at hok
      cases hu : env.upload q with
      | error msg =>
        rw [hu] at hok
        rcases List.mem_cons.mp hp with hpq | hprest
        · subst hpq
          rcases hbad with hb | ⟨e, hb⟩ | ⟨h, evs2, hb, _⟩
          · rw [hq] at hb; cases hb
          · cases hok
          · rw [hu] at hb; cases hb
        · cases hok
      | ok h =>
        rw [hu] at hok
        dsimp only at hok
        cases hpoll : pollFile env q fuel h 0 with
        | exit1 evs2 => rw [hpoll] at hok; cases hok
        | diverge evs2 => rw [hpoll] at hok; cases hok
        | ok hFinal evs2 =>
          rw [hpoll] at hok
          rcases List.mem_cons.mp hp with hpq | hprest
          · subst hpq
            rcases hbad with hb | ⟨e, hb⟩ | ⟨h2, evs3, hb, hb2⟩
            · rw [hq] at hb; cases hb
            · rw [hu] at hb; cases hb
            · rw [hu] at hb
              cases hb
              rw [hpoll] at hb2
              cases hb2
          · cases hr : uploadFiles env fuel rest with
            | ok hs2 evs3 =>
              exact ih hprest hs2 evs3 hr
            | exit1 evs3 => rw [hr] at hok; cases hok
            | diverge evs3 => rw [hr] at hok; cases hok
    · rw [if_neg hq] at hok
      cases hok

-- Concatenation form of the assembled prompt.

lemma string_foldl_join (l : List String) :
    ∀ init : String, l.foldl (· ++ ·) init = init ++ String.join l := by
  induction l with
  | nil =>
    intro init
    simp [String.join, String.append_empty]
  | cons s t ih =>
    intro init
    have hj : String.join (s :: t) = s ++ String.join t := by
      show List.foldl (· ++ ·) "" (s :: t) = s ++ String.join t
      rw [List.foldl_cons, String.empty_append, ih s]
    rw [List.foldl_cons, ih (init ++ s), hj, String.append_assoc]

lemma assemble_join (instrRaw : String) (files : List (String × String)) :
    assemble instrRaw files =
      pyStrip instrRaw ++ String.join (files.map (fun f => promptBlock f.1 f.2)) := by
  unfold assemble
  rw [← List.foldl_map (fun f : String × String => promptBlock f.1 f.2) (· ++ ·) files (pyStrip instrRaw)]
  exact string_foldl_join _ _

-- Counting helpers over stage traces.

lemma countGen_uploadSection (env : Env) (args : Args) (fuel : Nat) :
    countGen (stepEvents (uploadSection env args fuel)) = 0 := by
  rw [countGen, List.countP_eq_zero]
  intro e he
  rw [uploadStage_not_gen e (uploadSection_events env args fuel e he)]
  simp

lemma countWrite_uploadSection (env : Env) (args : Args) (fuel : Nat) :
    countWrite (stepEvents (uploadSection env args fuel)) = 0 := by
  rw [countWrite, List.countP_eq_zero]
  intro e he
  rw [uploadStage_not_write e (uploadSection_events env args fuel e he)]
  simp

lemma countGen_stdout_map (hs : List FileHandle) :
    (hs.map (fun h => Event.stdout (showFile h))).countP (fun e => isGen e) = 0 := by
  induction hs with
  | nil => rfl
  | cons h t ih => simp [List.countP_cons, isGen, ih]

lemma finishRun_ppo (env : Env) (args : Args) (c : String) (hs : List FileHandle)
    (h : args.print_prompt_only = true) :
    finishRun env args c hs =
      (.exited 0,
        [.stdout "=== Constructed Prompt & File References ===", .stdout c] ++
          (if hs.isEmpty then []
           else .stdout "\n=== Uploaded Files ===" :: hs.map (fun h => .stdout (showFile h))) ++
          [.stdout "=== End of Prompt & File References ==="]) := by
  unfold finishRun
  rw [if_pos h]

lemma dropWhile_replicate_a (n : Nat) :
    (List.replicate n 'a').dropWhile Char.isWhitespace = List.replicate n 'a' := by
  cases n with
  | zero => rfl
  | succ n =>
    rw [List.replicate_succ, List.dropWhile_cons]
    simp

lemma stripChars_replicate_a (n : Nat) :
    stripChars (List.replicate n 'a') = List.replicate n 'a' := by
  unfold stripChars
  rw [dropWhile_replicate_a, List.reverse_replicate, dropWhile_replicate_a,
    List.reverse_replicate]

lemma bigText_strip_length : (pyStrip bigText).length = 4000001 := by
  show (stripChars (List.replicate 4000001 'a')).length = 4000001
  rw [stripChars_replicate_a]
  exact List.length_replicate 4000001 'a'

lemma bigPrompt_length : (assembledPrompt bigEnv plainArgs).length > MAX_CHARS := by
  have h1 : assembledPrompt bigEnv plainArgs = pyStrip bigText := rfl
  rw [h1, bigText_strip_length]
  norm_num [MAX_CHARS, MAX_TEXT_TOKENS, AVG_CHARS_PER_TOKEN]

/-- Claim C2: whenever the assembled text prompt is longer than
MAX_CHARS = MAX_TEXT_TOKENS * AVG_CHARS_PER_TOKEN = 4,000,000 characters,
the run exits with code 1 and performs no generation call. -/
theorem claim_C2_size_guard :
    MAX_CHARS = MAX_TEXT_TOKENS * AVG_CHARS_PER_TOKEN ∧ MAX_CHARS = 4000000 ∧
    ∀ (env : Env) (args : Args) (fuel : Nat),
      (assembledPrompt env args).length > MAX_CHARS →
      (runMain env args fuel).outcome = .exited 1 ∧
        countGen (runMain env args fuel).events = 0 := by
  refine ⟨rfl, rfl, ?_⟩
  intro env args fuel hbig
  cases hc : (!(truthy args.api_key) && !(truthy env.googleApiKey)) with
  | true =>
    rw [runMain_credMissing env args fuel hc]
    exact ⟨rfl, by simp [countGen, List.countP_cons, isGen]⟩
  | false =>
    cases hex : env.pathExists args.agent_setup with
    | false =>
      rw [runMain_agentMissing env args fuel hc hex]
      exact ⟨rfl, by simp [countGen, List.countP_cons, isGen]⟩
    | true =>
      cases hrt : readTextFiles env (textPaths args) with
      | error ev =>
        rw [runMain_textError env args fuel ev hc hex hrt]
        obtain ⟨p, _, _, hev⟩ := readTextFiles_error env (textPaths args) ev hrt
        exact ⟨rfl, by simp [hev, countGen, List.countP_cons, isGen]⟩
      | ok files =>
        have hcomb : assemble (env.readFile args.agent_setup) files = assembledPrompt env args := by
          rw [readTextFiles_ok env (textPaths args) files hrt]
          rfl
        have h4 : (assemble (env.readFile args.agent_setup) files).length > MAX_CHARS := by
          rw [hcomb]
          exact hbig
        rw [runMain_sizeFail env args fuel files hc hex hrt h4]
        exact ⟨rfl, by simp [countGen, List.countP_cons, isGen]⟩

theorem claim_C2_witness :
    (assembledPrompt bigEnv plainArgs).length > MAX_CHARS ∧
    (runMain bigEnv plainArgs 1).outcome = .exited 1 ∧
    countGen (runMain bigEnv plainArgs 1).events = 0 :=
  ⟨bigPrompt_length, claim_C2_size_guard.2.2 bigEnv plainArgs 1 bigPrompt_length⟩

/-- Claim C7: a non-existent agent-setup path makes the run exit with code 1
with no remote call (no upload, no status poll, no generation call). -/
theorem claim_C7_agent_setup_missing (env : Env) (args : Args) (fuel : Nat)
    (h : env.pathExists args.agent_setup = false) :
    (runMain env args fuel).outcome = .exited 1 ∧
      countRemote (runMain env args fuel).events = 0 := by
  cases hc : (!(truthy args.api_key) && !(truthy env.googleApiKey)) with
  | true =>
    rw [runMain_credMissing env args fuel hc]
    exact ⟨rfl, by simp [countRemote, List.countP_cons, isRemoteCall]⟩
  | false =>
    rw [runMain_agentMissing env args fuel hc h]
    exact ⟨rfl, by simp [countRemote, List.countP_cons, isRemoteCall]⟩

theorem claim_C7_witness :
    okEnv.pathExists missingSetupArgs.agent_setup = false ∧
    (runMain okEnv missingSetupArgs 1).outcome = .exited 1 ∧
    countRemote (runMain okEnv missingSetupArgs 1).events = 0 :=
  ⟨by decide, claim_C7_agent_setup_missing okEnv missingSetupArgs 1 (by decide)⟩

/-- Claim C8: more than MAX_UPLOAD_FILES = 10 paths in the enclose-files
option make the run exit with code 1 before any upload call. -/
theorem claim_C8_upload_limit :
    MAX_UPLOAD_FILES = 10 ∧
    ∀ (env : Env) (args : Args) (fuel : Nat),
      (splitPaths args.enclose_files).length > MAX_UPLOAD_FILES →
      (runMain env args fuel).outcome = .exited 1 ∧
        countUpload (runMain env args fuel).events = 0 := by
  refine ⟨rfl, ?_⟩
  intro env args fuel hcount
  cases hc : (!(truthy args.api_key) && !(truthy env.googleApiKey)) with
  | true =>
    rw [runMain_credMissing env args fuel hc]
    exact ⟨rfl, by simp [countUpload, List.countP_cons, isUpload]⟩
  | false =>
    cases hex : env.pathExists args.agent_setup with
    | false =>
      rw [runMain_agentMissing env args fuel hc hex]
      exact ⟨rfl, by simp [countUpload, List.countP_cons, isUpload]⟩
    | true =>
      cases hrt : readTextFiles env (textPaths args) with
      | error ev =>
        rw [runMain_textError env args fuel ev hc hex hrt]
        obtain ⟨p, _, _, hev⟩ := readTextFiles_error env (textPaths args) ev hrt
        exact ⟨rfl, by simp [hev, countUpload, List.countP_cons, isUpload]⟩
      | ok files =>
        by_cases h4 : (assemble (env.readFile args.agent_setup) files).length > MAX_CHARS
        · rw [runMain_sizeFail env args fuel files hc hex hrt h4]
          exact ⟨rfl, by simp [countUpload, List.countP_cons, isUpload]⟩
        · rw [runMain_afterGuard env args fuel files hc hex hrt h4]
          have hne : args.enclose_files ≠ "" := by
            intro he0
            rw [he0] at hcount
            have h0 : splitPaths "" = [] := rfl
            rw [h0] at hcount
            simp [MAX_UPLOAD_FILES] at hcount
          have hsec : uploadSection env args fuel =
              .exit1 [.stderr (tooManyMsg (splitPaths args.enclose_files).length)] := by
            unfold uploadSection
            rw [if_pos hne]
            dsimp only
            rw [if_pos hcount]
          rw [hsec]
          exact ⟨rfl, by simp [countUpload, List.countP_cons, isUpload]⟩

theorem claim_C8_witness :
    (splitPaths manyUploadArgs.enclose_files).length > MAX_UPLOAD_FILES ∧
    (runMain okEnv manyUploadArgs 1).outcome = .exited 1 ∧
    countUpload (runMain okEnv manyUploadArgs 1).events = 0 :=
  ⟨by decide, claim_C8_upload_limit.2 okEnv manyUploadArgs 1 (by decide)⟩

/-- Claim C6: on every failure path before the generation call the run
writes no output file, and whenever it exits, the exit code is 1 (a run
stuck forever in the polling loop never exits at all). -/
theorem claim_C6_no_partial_output (env : Env) (args : Args) (fuel : Nat)
    (h : preGenFailure env args fuel) :
    countWrite (runMain env args fuel).events = 0 ∧
      (∀ c, (runMain env args fuel).outcome = .exited c → c = 1) := by
  cases hc : (!(truthy args.api_key) && !(truthy env.googleApiKey)) with
  | true =>
    rw [runMain_credMissing env args fuel hc]
    refine ⟨by simp [countWrite, List.countP_cons, isWrite], ?_⟩
    intro c h0
    injection h0 with h1
    exact h1.symm
  | false =>
    cases hex : env.pathExists args.agent_setup with
    | false =>
      rw [runMain_agentMissing env args fuel hc hex]
      refine ⟨by simp [countWrite, List.countP_cons, isWrite], ?_⟩
      intro c h0
      injection h0 with h1
      exact h1.symm
    | true =>
      cases hrt : readTextFiles env (textPaths args) with
      | error ev =>
        rw [runMain_textError env args fuel ev hc hex hrt]
        obtain ⟨p, _, _, hev⟩ := readTextFiles_error env (textPaths args) ev hrt
        refine ⟨by simp [hev, countWrite, List.countP_cons, isWrite], ?_⟩
        intro c h0
        injection h0 with h1
        exact h1.symm
      | ok files =>
        have hcomb : assemble (env.readFile args.agent_setup) files = assembledPrompt env args := by
          rw [readTextFiles_ok env (textPaths args) files hrt]
          rfl
        by_cases h4 : (assemble (env.readFile args.agent_setup) files).length > MAX_CHARS
        · rw [runMain_sizeFail env args fuel files hc hex hrt h4]
          refine ⟨by simp [countWrite, List.countP_cons, isWrite], ?_⟩
          intro c h0
          injection h0 with h1
          exact h1.symm
        · rw [runMain_afterGuard env args fuel files hc hex hrt h4]
          cases hsec : uploadSection env args fuel with
          | exit1 evs =>
            have hevs : List.countP (fun e => isWrite e) evs = 0 := by
              have h5 := countWrite_uploadSection env args fuel
              rw [hsec] at h5
              exact h5
            refine ⟨?_, ?_⟩
            · simp only [countWrite, List.countP_cons, hevs]
              simp [isWrite]
            · intro c h0
              injection h0 with h1
              exact h1.symm
          | diverge evs =>
            have hevs : List.countP (fun e => isWrite e) evs = 0 := by
              have h5 := countWrite_uploadSection env args fuel
              rw [hsec] at h5
              exact h5
            refine ⟨?_, ?_⟩
            · simp only [countWrite, List.countP_cons, hevs]
              simp [isWrite]
            · intro c h0
              cases h0
          | ok handles evs =>
            exfalso
            rcases h with hc2 | hex2 | ⟨p, hp, hmiss⟩ | hsize | hcount | ⟨p, hp, hbad⟩
            · rw [hc] at hc2
              cases hc2
            · rw [hex] at hex2
              cases hex2
            · obtain ⟨ev, herr⟩ := readTextFiles_missing env (textPaths args) p hp hmiss
              rw [hrt] at herr
              cases herr
            · rw [← hcomb] at hsize
              exact h4 hsize
            · have hne : args.enclose_files ≠ "" := by
                intro he0
                rw [he0] at hcount
                have h0 : splitPaths "" = [] := rfl
                rw [h0] at hcount
                simp [MAX_UPLOAD_FILES] at hcount
              unfold uploadSection at hsec
              rw [if_pos hne] at hsec
              dsimp only at hsec
              rw [if_pos hcount] at hsec
              cases hsec
            · have hne : args.enclose_files ≠ "" := by
                intro he0
                rw [he0] at hp
                have h0 : splitPaths "" = [] := rfl
                rw [h0] at hp
                simp at hp
              unfold uploadSection at hsec
              rw [if_pos hne] at hsec
              dsimp only at hsec
              by_cases hcnt : (splitPaths args.enclose_files).length > MAX_UPLOAD_FILES
              · rw [if_pos hcnt] at hsec
                cases hsec
              · rw [if_neg hcnt] at hsec
                obtain ⟨evs2, hup, _⟩ := stepPre_eq_ok _ _ _ _ hsec
                exact uploadFiles_not_ok env fuel (splitPaths args.enclose_files) p hp hbad
                  handles evs2 hup

theorem claim_C6_witness :
    preGenFailure noKeyEnv noKeyArgs 1 ∧
    countWrite (runMain noKeyEnv noKeyArgs 1).events = 0 :=
  ⟨Or.inl (by decide),
   (claim_C6_no_partial_output noKeyEnv noKeyArgs 1 (Or.inl (by decide))).1⟩

lemma isGen_stdout (s : String) : isGen (.stdout s) = false := rfl

lemma isGen_sizeCheck (n : Nat) : isGen (.sizeCheck n) = false := rfl

/-- Claim C1 (amended): with print-prompt-only set, the run never makes a
generation call, and whenever it exits with code 0 it has printed the
assembled prompt; upload calls may still happen and earlier failure paths
still exit 1. -/
theorem claim_C1_print_prompt_only (env : Env) (args : Args) (fuel : Nat)
    (hppo : args.print_prompt_only = true) :
    countGen (runMain env args fuel).events = 0 ∧
    ((runMain env args fuel).outcome = .exited 0 →
      Event.stdout (assembledPrompt env args) ∈ (runMain env args fuel).events) := by
  cases hc : (!(truthy args.api_key) && !(truthy env.googleApiKey)) with
  | true =>
    rw [runMain_credMissing env args fuel hc]
    refine ⟨by simp [countGen, List.countP_cons, isGen], ?_⟩
    intro h0
    simp at h0
  | false =>
    cases hex : env.pathExists args.agent_setup with
    | false =>
      rw [runMain_agentMissing env args fuel hc hex]
      refine ⟨by simp [countGen, List.countP_cons, isGen], ?_⟩
      intro h0
      simp at h0
    | true =>
      cases hrt : readTextFiles env (textPaths args) with
      | error ev =>
        rw [runMain_textError env args fuel ev hc hex hrt]
        obtain ⟨p, _, _, hev⟩ := readTextFiles_error env (textPaths args) ev hrt
        refine ⟨by simp [hev, countGen, List.countP_cons, isGen], ?_⟩
        intro h0
        simp at h0
      | ok files =>
        have hcomb : assemble (env.readFile args.agent_setup) files = assembledPrompt env args := by
          rw [readTextFiles_ok env (textPaths args) files hrt]
          rfl
        by_cases h4 : (assemble (env.readFile args.agent_setup) files).length > MAX_CHARS
        · rw [runMain_sizeFail env args fuel files hc hex hrt h4]
          refine ⟨by simp [countGen, List.countP_cons, isGen], ?_⟩
          intro h0
          simp at h0
        · rw [runMain_afterGuard env args fuel files hc hex hrt h4]
          cases hsec : uploadSection env args fuel with
          | exit1 evs =>
            have hevs : List.countP (fun e => isGen e) evs = 0 := by
              have h5 := countGen_uploadSection env args fuel
              rw [hsec] at h5
              exact h5
            refine ⟨?_, ?_⟩
            · simp only [countGen, List.countP_cons, hevs]
              simp [isGen]
            · intro h0
              simp at h0
          | diverge evs =>
            have hevs : List.countP (fun e => isGen e) evs = 0 := by
              have h5 := countGen_uploadSection env args fuel
              rw [hsec] at h5
              exact h5
            refine ⟨?_, ?_⟩
            · simp only [countGen, List.countP_cons, hevs]
              simp [isGen]
            · intro h0
              simp at h0
          | ok handles evs =>
            have hevs : List.countP (fun e => isGen e) evs = 0 := by
              have h5 := countGen_uploadSection env args fuel
              rw [hsec] at h5
              exact h5
            dsimp only
            rw [finishRun_ppo env args (assemble (env.readFile args.agent_setup) files)
              handles hppo]
            dsimp only
            refine ⟨?_, ?_⟩
            · simp only [countGen, List.countP_cons, List.countP_append, hevs]
              by_cases hemp : handles.isEmpty <;>
                simp [hemp, countGen_stdout_map, List.countP_cons, List.countP_append,
                  isGen_stdout, isGen_sizeCheck]
            · intro _
              rw [← hcomb]
              simp

/-- Claim C1 counterexample: with print-prompt-only set, a missing
credential still exits 1 (not 0), and a run with enclose-files still
performs an upload call before the short-circuit. -/
theorem claim_C1_counterexample :
    noKeyPPOArgs.print_prompt_only = true ∧
    (runMain noKeyEnv noKeyPPOArgs 1).outcome = .exited 1 ∧
    (runMain noKeyEnv noKeyPPOArgs 1).outcome ≠ .exited 0 ∧
    uploadPPOArgs.print_prompt_only = true ∧
    countUpload (runMain okEnv uploadPPOArgs 1).events = 1 ∧
    (runMain okEnv uploadPPOArgs 1).outcome = .exited 0 := by
  refine ⟨rfl, by decide, by decide, rfl, by decide, by decide⟩

theorem claim_C1_witness :
    countGen (runMain okEnv uploadPPOArgs 1).events = 0 ∧
    Event.stdout (assembledPrompt okEnv uploadPPOArgs) ∈ (runMain okEnv uploadPPOArgs 1).events :=
  ⟨(claim_C1_print_prompt_only okEnv uploadPPOArgs 1 rfl).1,
   (claim_C1_print_prompt_only okEnv uploadPPOArgs 1 rfl).2 (by decide)⟩

lemma textPaths_nil (args : Args) (h1 : splitPaths args.enclose_files_as_prompt = []) :
    textPaths args = [] := by
  unfold textPaths
  split
  · exact h1
  · rfl

/-- Claim C9 (amended): when both comma lists strip and filter to nothing,
the run has the same outcome and the same events as a run without the
options, except that a non-empty enclose-files argument still prints the
progress line announcing an upload of 0 files. -/
theorem claim_C9_whitespace_lists (env : Env) (args : Args) (fuel : Nat)
    (h1 : splitPaths args.enclose_files_as_prompt = [])
    (h2 : splitPaths args.enclose_files = []) :
    (runMain env args fuel).outcome = (runMain env (blankFileArgs args) fuel).outcome ∧
    (runMain env args fuel).events.filter (fun e => e ≠ .stdout (uploadingMsg 0)) =
      (runMain env (blankFileArgs args) fuel).events.filter
        (fun e => e ≠ .stdout (uploadingMsg 0)) := by
  have htp : textPaths args = [] := textPaths_nil args h1
  cases hc : (!(truthy args.api_key) && !(truthy env.googleApiKey)) with
  | true =>
    have hcb : (!(truthy (blankFileArgs args).api_key) && !(truthy env.googleApiKey)) = true := hc
    rw [runMain_credMissing env args fuel hc, runMain_credMissing env (blankFileArgs args) fuel hcb]
    exact ⟨rfl, rfl⟩
  | false =>
    have hcb : (!(truthy (blankFileArgs args).api_key) && !(truthy env.googleApiKey)) = false := hc
    cases hex : env.pathExists args.agent_setup with
    | false =>
      have hexb : env.pathExists (blankFileArgs args).agent_setup = false := hex
      rw [runMain_agentMissing env args fuel hc hex,
        runMain_agentMissing env (blankFileArgs args) fuel hcb hexb]
      exact ⟨rfl, rfl⟩
    | true =>
      have hexb : env.pathExists (blankFileArgs args).agent_setup = true := hex
      have hrt : readTextFiles env (textPaths args) = .ok [] := by
        rw [htp]
        rfl
      have hrtb : readTextFiles env (textPaths (blankFileArgs args)) = .ok [] := rfl
      by_cases h4 :
          (assemble (env.readFile args.agent_setup) ([] : List (String × String))).length > MAX_CHARS
      · rw [runMain_sizeFail env args fuel [] hc hex hrt h4,
          runMain_sizeFail env (blankFileArgs args) fuel [] hcb hexb hrtb h4]
        exact ⟨rfl, rfl⟩
      · rw [runMain_afterGuard env args fuel [] hc hex hrt h4,
          runMain_afterGuard env (blankFileArgs args) fuel [] hcb hexb hrtb h4]
        have hsecb : uploadSection env (blankFileArgs args) fuel = .ok [] [] := by
          unfold uploadSection
          simp [blankFileArgs]
        by_cases henc : args.enclose_files = ""
        · have hsec : uploadSection env args fuel = .ok [] [] := by
            unfold uploadSection
            simp [henc]
          rw [hsec, hsecb]
          exact ⟨rfl, rfl⟩
        · have hsec : uploadSection env args fuel = .ok [] [.stdout (uploadingMsg 0)] := by
            unfold uploadSection
            rw [if_pos henc]
            dsimp only
            rw [h2]
            simp [MAX_UPLOAD_FILES, uploadFiles, stepPre]
          rw [hsec, hsecb]
          dsimp only
          refine ⟨rfl, ?_⟩
          simp only [List.filter_cons, List.filter_append]
          simp
          exact ⟨rfl, rfl⟩

/-- Claim C9 counterexample: an enclose-files argument of only commas and
whitespace is split and filtered to an empty path list, yet the run is not
identical to the run without the option — the upload progress line for 0
files is still printed. -/
theorem claim_C9_counterexample :
    splitPaths commaArgs.enclose_files = [] ∧
    runMain okEnv commaArgs 1 ≠ runMain okEnv (blankFileArgs commaArgs) 1 ∧
    Event.stdout (uploadingMsg 0) ∈ (runMain okEnv commaArgs 1).events := by
  refine ⟨by decide, by decide, by decide⟩

theorem claim_C9_witness :
    (runMain okEnv commaArgs 1).outcome = (runMain okEnv (blankFileArgs commaArgs) 1).outcome ∧
    (runMain okEnv commaArgs 1).events.filter (fun e => e ≠ .stdout (uploadingMsg 0)) =
      (runMain okEnv (blankFileArgs commaArgs) 1).events.filter
        (fun e => e ≠ .stdout (uploadingMsg 0)) :=
  claim_C9_whitespace_lists okEnv commaArgs 1 (by decide) (by decide)

/-- Claim C3: the assembled prompt is the stripped instructions content
followed, for each text attachment in order, by its block — a newline, a
delimiter line naming the path, the content verbatim, a newline; and
assembly is a deterministic function of the instructions and attachment
contents. -/
theorem claim_C3_prompt_assembly :
    (∀ (instr : String) (files : List (String × String)),
        assemble instr files =
          pyStrip instr ++ String.join (files.map (fun f => promptBlock f.1 f.2))) ∧
    (∀ (env1 env2 : Env) (args1 args2 : Args),
        env1.readFile = env2.readFile →
        args1.agent_setup = args2.agent_setup →
        args1.enclose_files_as_prompt = args2.enclose_files_as_prompt →
        assembledPrompt env1 args1 = assembledPrompt env2 args2) := by
  constructor
  · exact assemble_join
  · intro env1 env2 args1 args2 hr ha he
    unfold assembledPrompt textPaths
    rw [hr, ha, he]

theorem claim_C3_witness :
    assemble " Summarize this. " [("notes.txt", "Hello world")] =
      pyStrip " Summarize this. " ++ String.join [promptBlock "notes.txt" "Hello world"] ∧
    assembledPrompt okEnv plainArgs = assembledPrompt okEnv altDumpArgs :=
  ⟨claim_C3_prompt_assembly.1 " Summarize this. " [("notes.txt", "Hello world")],
   claim_C3_prompt_assembly.2 okEnv okEnv plainArgs altDumpArgs rfl rfl rfl⟩

/-- Claim C5 counterexample: a concrete run performs the size-guard
comparison and only afterwards the upload call, so the claimed phase order
(upload before size guard) is violated on its trace. -/
theorem claim_C5_counterexample :
    ((runMain okEnv uploadOnlyPPOArgs 2).events).filterMap specPhase = [2, 1] ∧
    ¬ List.Sorted (· ≤ ·) (((runMain okEnv uploadOnlyPPOArgs 2).events).filterMap specPhase) := by
  refine ⟨by decide, by decide⟩

/-- Claim C4: while a handle reports PROCESSING the loop re-polls, so a
successful wait that started at PROCESSING contains at least one status
re-poll (at least two status observations counting the upload response) and
ends in a state that is neither PROCESSING nor FAILED; a FAILED handle makes
the upload fail; and on the oracle that reports PROCESSING once and then
READY, the upload of one file returns the READY handle with exactly one
re-poll and no error. -/
theorem claim_C4_upload_polling :
    (∀ (env : Env) (path : String) (fuel : Nat) (cur : FileHandle) (i : Nat)
        (hs : FileHandle) (evs : List Event),
        cur.state = "PROCESSING" →
        pollFile env path fuel cur i = .ok hs evs →
        1 ≤ countStatus evs ∧ hs.state ≠ "PROCESSING" ∧ hs.state ≠ "FAILED") ∧
    (∀ (env : Env) (path : String) (fuel : Nat) (cur : FileHandle) (i : Nat),
        cur.state = "FAILED" →
        pollFile env path fuel cur i =
          .exit1 [.stderr (uploadExcMsg path (processingFailedMsg path))]) ∧
    (uploadFiles pollEnv 5 ["doc.pdf"] =
      .ok [⟨"files/d1", "READY"⟩]
        [.uploadCall "doc.pdf", .stdout (refMsg ⟨"files/d1", "PROCESSING"⟩),
         .stdout (waitingMsg "doc.pdf"), .statusCall "files/d1"] ∧
     countStatus [Event.uploadCall "doc.pdf", Event.stdout (refMsg ⟨"files/d1", "PROCESSING"⟩),
         Event.stdout (waitingMsg "doc.pdf"), Event.statusCall "files/d1"] = 1) := by
  refine ⟨?_, ?_, by decide, by decide⟩
  · intro env path fuel cur i hs evs h1 hok
    exact ⟨pollFile_processing_ok_polls env path fuel cur i hs evs h1 hok,
      pollFile_ok_settled env path fuel cur i hs evs hok⟩
  · intro env path fuel cur i h1
    exact pollFile_failed env path fuel cur i h1

theorem claim_C4_witness :
    (1 ≤ countStatus [Event.stdout (waitingMsg "doc.pdf"), Event.statusCall "files/d1"] ∧
      ("READY" : String) ≠ "PROCESSING" ∧ ("READY" : String) ≠ "FAILED") ∧
    pollFile pollEnv "doc.pdf" 5 ⟨"files/d1", "FAILED"⟩ 0 =
      .exit1 [.stderr (uploadExcMsg "doc.pdf" (processingFailedMsg "doc.pdf"))] :=
  ⟨claim_C4_upload_polling.1 pollEnv "doc.pdf" 5 ⟨"files/d1", "PROCESSING"⟩ 0
      ⟨"files/d1", "READY"⟩ [Event.stdout (waitingMsg "doc.pdf"), Event.statusCall "files/d1"]
      rfl (by decide),
   claim_C4_upload_polling.2.1 pollEnv "doc.pdf" 5 ⟨"files/d1", "FAILED"⟩ 0 rfl⟩

/-- Claim C10: any reported state other than PROCESSING and FAILED ends the
wait at once: the handle is collected as successful with no further status
poll, no waiting line, and no error. -/
theorem claim_C10_settled_states (env : Env) (path : String) (fuel : Nat) (cur : FileHandle)
    (i : Nat) (h1 : cur.state ≠ "PROCESSING") (h2 : cur.state ≠ "FAILED") :
    pollFile env path fuel cur i = .ok cur [] := by
  exact pollFile_settled env path fuel cur i h1 h2

theorem claim_C10_witness :
    pollFile pollEnv "doc.pdf" 3 ⟨"files/d1", "PENDING"⟩ 0 = .ok ⟨"files/d1", "PENDING"⟩ [] :=
  claim_C10_settled_states pollEnv "doc.pdf" 3 ⟨"files/d1", "PENDING"⟩ 0 (by decide) (by decide)
